import Mathlib

/-!
# Billing and inventory engine: a shallow embedding with proofs

This file embeds the billing transaction engine of a point-of-sale
application (cart management, line pricing, tax computation and split,
invoice sequencing, and the transactional bill write with its stock
ledger) as executable Lean definitions, and proves or refutes the
properties its specification states about them.

Monetary values are modelled as exact rationals; Python's `round`
builtin (round-half-to-even) is modelled by `roundHalfEven` /
`round2`.  Database tables are lists of rows; the write transaction of
`create_bill` is modelled step by step, with an optional injected
failure index standing for an exception raised by any one write (or by
the final commit), after which the connection manager rolls the
transaction back.
-/

namespace BillingApp

/-- Round-half-to-even on rationals, the semantics of Python's `round(x)`. -/
def roundHalfEven (q : ℚ) : ℤ :=
  if q - Rat.floor q < 1/2 then Rat.floor q
  else if 1/2 < q - Rat.floor q then Rat.floor q + 1
  else if Rat.floor q % 2 = 0 then Rat.floor q else Rat.floor q + 1

/-- Python's `round(x, 2)`: round-half-to-even at two decimal places. -/
def round2 (q : ℚ) : ℚ := (roundHalfEven (q * 100) : ℚ) / 100

lemma rat_floor_eq_floor (q : ℚ) : Rat.floor q = ⌊q⌋ := by
  rw [Rat.floor_def', Rat.floor_def]

lemma rat_floor_eq {q : ℚ} {n : ℤ} (h0 : (n:ℚ) ≤ q) (h1 : q < (n:ℚ) + 1) :
    Rat.floor q = n := by
  rw [rat_floor_eq_floor]
  exact Int.floor_eq_iff.mpr ⟨h0, by exact_mod_cast h1⟩

/-- Evaluation rule: a value below the halfway point rounds down. -/
lemma roundHalfEven_eq_down {q : ℚ} {n : ℤ} (h0 : (n:ℚ) ≤ q) (h1 : q < (n:ℚ) + 1/2) :
    roundHalfEven q = n := by
  have hf : Rat.floor q = n := rat_floor_eq h0 (by linarith)
  unfold roundHalfEven
  rw [hf, if_pos (by linarith)]

/-- Evaluation rule: a value above the halfway point rounds up. -/
lemma roundHalfEven_eq_up {q : ℚ} {n : ℤ} (h0 : (n:ℚ) + 1/2 < q) (h1 : q < (n:ℚ) + 1) :
    roundHalfEven q = n + 1 := by
  have hf : Rat.floor q = n := rat_floor_eq (by linarith) h1
  unfold roundHalfEven
  rw [hf, if_neg (by linarith), if_pos (by linarith)]

/-- Evaluation rule: the halfway point rounds to the even neighbour. -/
lemma roundHalfEven_eq_half {q : ℚ} {n : ℤ} (h : q = (n:ℚ) + 1/2) :
    roundHalfEven q = if n % 2 = 0 then n else n + 1 := by
  have hf : Rat.floor q = n := rat_floor_eq (by rw [h]; linarith) (by rw [h]; linarith)
  unfold roundHalfEven
  rw [hf, if_neg (by rw [h]; norm_num), if_neg (by rw [h]; norm_num)]

@[simp] lemma roundHalfEven_intCast (n : ℤ) : roundHalfEven (n : ℚ) = n :=
  roundHalfEven_eq_down le_rfl (by linarith)

@[simp] lemma round2_intCast (n : ℤ) : round2 (n : ℚ) = n := by
  unfold round2
  rw [show ((n:ℚ) * 100) = (((n * 100 : ℤ)):ℚ) by push_cast; ring, roundHalfEven_intCast]
  push_cast
  ring

@[simp] lemma round2_zero : round2 0 = 0 := by
  rw [show (0:ℚ) = ((0:ℤ):ℚ) by norm_num, round2_intCast]

/-- `round2` of a value that is already a whole number of hundredths. -/
lemma round2_eq_div {q : ℚ} {a : ℤ} (h : q * 100 = (a:ℚ)) : round2 q = (a:ℚ) / 100 := by
  unfold round2
  rw [h, roundHalfEven_intCast]

/-- `round2` of a value that is already a whole number. -/
lemma round2_eq_int {q : ℚ} {a : ℤ} (h : q = (a:ℚ)) : round2 q = q := by
  rw [h, round2_intCast]

lemma round2_idem (q : ℚ) : round2 (round2 q) = round2 q := by
  have h : round2 q * 100 = ((roundHalfEven (q * 100) : ℤ) : ℚ) := by
    unfold round2
    field_simp
  rw [round2_eq_div h]
  unfold round2
  rfl

/-! ## Line pricer (`GSTCalculator`, `src/modules/gst_calculator.py`) -/

/-- `GSTCalculator.calculate_selling_price`: a discount percentage outside
`[0, 100]` is replaced by `0`, then the list price is discounted and the
result rounded to two decimals. -/
def calculate_selling_price (mrp : ℚ) (discount_percent : ℚ) : ℚ :=
  round2 (mrp * (1 - (if discount_percent < 0 ∨ 100 < discount_percent then 0
    else discount_percent) / 100))

/-- `GSTCalculator.calculate_item_total`: returns `(rate, amount)`. -/
def calculate_item_total (mrp : ℚ) (discount_percent : ℚ) (quantity : ℤ) : ℚ × ℚ :=
  (round2 (calculate_selling_price mrp discount_percent),
    round2 (calculate_selling_price mrp discount_percent * quantity))

/-- The line pricer as the specification words it: the discount percentage
is CLAMPED to `[0, 100]` (rather than replaced by `0` when out of range).
Stated from the spec only, for comparison with `calculate_item_total`. -/
def price_spec (listPrice : ℚ) (discountPercent : ℚ) (quantity : ℤ) : ℚ × ℚ :=
  (round2 (listPrice * (1 - max 0 (min 100 discountPercent) / 100)),
    round2 (round2 (listPrice * (1 - max 0 (min 100 discountPercent) / 100)) * quantity))

/-- C6, counterexample: at list price 100, discount 150 % and quantity 1 the
code resets the out-of-range discount to 0 and charges the full list price
100, while the clamping rule of the claim would clamp to 100 % and charge 0. -/
theorem calculate_item_total_clamp_cex :
    (calculate_item_total 100 150 1).1 = 100 ∧ (price_spec 100 150 1).1 = 0 ∧
      calculate_item_total 100 150 1 ≠ price_spec 100 150 1 := by
  have h1 : (calculate_item_total 100 150 1).1 = 100 := by
    unfold calculate_item_total calculate_selling_price
    rw [if_pos (by norm_num : ((150:ℚ) < 0 ∨ (100:ℚ) < 150))]
    norm_num
    rw [round2_idem, round2_eq_int (a := 100) (by norm_num)]
  have h2 : (price_spec 100 150 1).1 = 0 := by
    unfold price_spec
    norm_num
  refine ⟨h1, h2, fun hcontra => ?_⟩
  rw [Prod.ext_iff, h1, h2] at hcontra
  norm_num at hcontra

/-- C6, amended: the pricer replaces an out-of-range discount percentage by
`0` (it does not clamp); with the effective discount `d'` so obtained,
`rate = round2 (listPrice * (1 - d'/100))` and `amount = round2 (rate *
quantity)`.  For discounts inside `[0, 100]` this agrees with the clamping
rule the specification states. -/
theorem calculate_item_total_eq (mrp discount_percent : ℚ) (q : ℤ) :
    calculate_item_total mrp discount_percent q =
      (round2 (mrp * (1 - (if discount_percent < 0 ∨ 100 < discount_percent then 0
          else discount_percent) / 100)),
        round2 (round2 (mrp * (1 - (if discount_percent < 0 ∨ 100 < discount_percent then 0
          else discount_percent) / 100)) * q))
    ∧ (0 ≤ discount_percent → discount_percent ≤ 100 →
        calculate_item_total mrp discount_percent q = price_spec mrp discount_percent q) := by
  constructor
  · unfold calculate_item_total calculate_selling_price
    rw [round2_idem]
  · intro h0 h100
    have hd : ¬ (discount_percent < 0 ∨ 100 < discount_percent) := by
      push_neg
      exact ⟨h0, h100⟩
    unfold calculate_item_total calculate_selling_price price_spec
    rw [if_neg hd, min_eq_right h100, max_eq_right h0, round2_idem]

/-- C6, witness: the specification's own worked example — list price 300,
discount 55 %, quantity 2 — where code and spec rule agree, giving rate
135.00 and amount 270.00. -/
theorem calculate_item_total_eq_witness :
    calculate_item_total 300 55 2 = price_spec 300 55 2 ∧
      calculate_item_total 300 55 2 = (135, 270) := by
  refine ⟨(calculate_item_total_eq 300 55 2).2 (by norm_num) (by norm_num), ?_⟩
  unfold calculate_item_total calculate_selling_price
  rw [if_neg (by norm_num : ¬ ((55:ℚ) < 0 ∨ (100:ℚ) < 55))]
  have hrate : round2 ((300:ℚ) * (1 - 55 / 100)) = 135 := by
    rw [round2_eq_div (a := 13500) (by norm_num)]
    norm_num
  rw [hrate, round2_eq_int (a := 135) (by norm_num)]
  have hamt : round2 ((135:ℚ) * ((2:ℤ):ℚ)) = 270 := by
    rw [round2_eq_div (a := 27000) (by push_cast; norm_num)]
    norm_num
  rw [hamt]

/-! ## Data model -/

/-- A catalog item (`products` table row), as read by the billing flow. -/
structure Product where
  id : ℕ
  name : String
  hsn_code : String
  unit : String
  mrp : ℚ
  discount_percent : ℚ
  selling_price : ℚ
  current_stock : ℤ
deriving DecidableEq, Repr

/-- An in-memory cart line (`BillingManager.cart_items` element). -/
structure CartItem where
  product_id : ℕ
  product_name : String
  hsn_code : String
  batch_number : String
  expiry_date : String
  quantity : ℤ
  unit : String
  mrp : ℚ
  discount_percent : ℚ
  rate : ℚ
  amount : ℚ
deriving DecidableEq, Repr

/-! ## Cart operations (`BillingManager.add_item_to_cart`) -/

/-- The fresh cart line built when the product is not yet in the cart. -/
def newCartItem (p : Product) (q : ℤ) (batch expiry : String) : CartItem :=
  { product_id := p.id, product_name := p.name, hsn_code := p.hsn_code,
    batch_number := batch, expiry_date := expiry, quantity := q, unit := p.unit,
    mrp := p.mrp, discount_percent := p.discount_percent, rate := p.selling_price,
    amount := p.selling_price * (q:ℚ) }

/-- First cart line for a given product id, mirroring the linear scan of the
Python loop. -/
def cartLine : List CartItem → ℕ → Option CartItem
  | [], _ => none
  | it :: rest, pid => if it.product_id = pid then some it else cartLine rest pid

/-- Quantity already in the cart for a product id (0 when absent). -/
def cartQty (cart : List CartItem) (pid : ℕ) : ℤ :=
  match cartLine cart pid with
  | some it => it.quantity
  | none => 0

/-- Replace the first cart line carrying the given product id. -/
def replaceFirst : List CartItem → ℕ → CartItem → List CartItem
  | [], _, _ => []
  | it :: rest, pid, nit =>
      if it.product_id = pid then nit :: rest else it :: replaceFirst rest pid nit

/-- The `for item in self.cart_items` loop of `add_item_to_cart`: reports the
merge outcome for the first line matching the product, or `none` when the
product is not in the cart. -/
def updateExisting (p : Product) (q : ℤ) : List CartItem → Option (Bool × String × List CartItem)
  | [] => none
  | it :: rest =>
    if it.product_id = p.id then
      if p.current_stock < it.quantity + q then
        some (false, "Total quantity exceeds stock. Available: " ++ toString p.current_stock,
          it :: rest)
      else
        some (true, "Quantity updated in cart",
          { it with
            quantity := it.quantity + q
            amount := it.rate * ((it.quantity + q : ℤ) : ℚ) } :: rest)
    else
      match updateExisting p q rest with
      | some (b, m, c) => some (b, m, it :: c)
      | none => none

/-- `BillingManager.add_item_to_cart`: returns `(success, message, cart)`. -/
def add_item_to_cart (cart : List CartItem) (p : Product) (q : ℤ)
    (batch expiry : String) : Bool × String × List CartItem :=
  if q ≤ 0 then (false, "Quantity must be greater than 0", cart)
  else if p.current_stock < q then
    (false, "Insufficient stock. Available: " ++ toString p.current_stock, cart)
  else
    match updateExisting p q cart with
    | some r => r
    | none => (true, "Item added to cart", cart ++ [newCartItem p q batch expiry])

lemma cartLine_mem {cart : List CartItem} {pid : ℕ} {it : CartItem}
    (h : cartLine cart pid = some it) : it ∈ cart ∧ it.product_id = pid := by
  induction cart with
  | nil => simp [cartLine] at h
  | cons hd tl ih =>
    rw [cartLine] at h
    by_cases hp : hd.product_id = pid
    · rw [if_pos hp] at h
      obtain rfl : hd = it := by injection h
      exact ⟨List.mem_cons_self _ _, hp⟩
    · rw [if_neg hp] at h
      obtain ⟨hmem, hpid⟩ := ih h
      exact ⟨List.mem_cons_of_mem _ hmem, hpid⟩

lemma updateExisting_none (p : Product) (q : ℤ) :
    ∀ cart : List CartItem, cartLine cart p.id = none → updateExisting p q cart = none := by
  intro cart
  induction cart with
  | nil => intro _; rfl
  | cons hd tl ih =>
    intro h
    rw [cartLine] at h
    by_cases hp : hd.product_id = p.id
    · rw [if_pos hp] at h
      exact absurd h (by simp)
    · rw [if_neg hp] at h
      rw [updateExisting, if_neg hp, ih h]

lemma updateExisting_exceeds (p : Product) (q : ℤ) :
    ∀ cart : List CartItem, ∀ it : CartItem, cartLine cart p.id = some it →
      p.current_stock < it.quantity + q →
      updateExisting p q cart =
        some (false, "Total quantity exceeds stock. Available: " ++ toString p.current_stock,
          cart) := by
  intro cart
  induction cart with
  | nil => intro it h; simp [cartLine] at h
  | cons hd tl ih =>
    intro it h hlt
    rw [cartLine] at h
    by_cases hp : hd.product_id = p.id
    · rw [if_pos hp] at h
      obtain rfl : hd = it := by injection h
      rw [updateExisting, if_pos hp, if_pos hlt]
    · rw [if_neg hp] at h
      rw [updateExisting, if_neg hp, ih it h hlt]

lemma updateExisting_fits (p : Product) (q : ℤ) :
    ∀ cart : List CartItem, ∀ it : CartItem, cartLine cart p.id = some it →
      ¬ p.current_stock < it.quantity + q →
      updateExisting p q cart =
        some (true, "Quantity updated in cart",
          replaceFirst cart p.id
            { it with
              quantity := it.quantity + q
              amount := it.rate * ((it.quantity + q : ℤ) : ℚ) }) := by
  intro cart
  induction cart with
  | nil => intro it h; simp [cartLine] at h
  | cons hd tl ih =>
    intro it h hle
    rw [cartLine] at h
    by_cases hp : hd.product_id = p.id
    · rw [if_pos hp] at h
      obtain rfl : hd = it := by injection h
      rw [updateExisting, if_pos hp, if_neg hle, replaceFirst, if_pos hp]
    · rw [if_neg hp] at h
      rw [updateExisting, if_neg hp, ih it h hle, replaceFirst, if_neg hp]

lemma replaceFirst_mem {cart : List CartItem} {pid : ℕ} {nit x : CartItem}
    (h : x ∈ replaceFirst cart pid nit) : x ∈ cart ∨ x = nit := by
  induction cart with
  | nil => simp [replaceFirst] at h
  | cons hd tl ih =>
    rw [replaceFirst] at h
    by_cases hp : hd.product_id = pid
    · rw [if_pos hp] at h
      rcases List.mem_cons.mp h with h1 | h2
      · exact Or.inr h1
      · exact Or.inl (List.mem_cons_of_mem _ h2)
    · rw [if_neg hp] at h
      rcases List.mem_cons.mp h with h1 | h2
      · exact Or.inl (h1 ▸ List.mem_cons_self _ _)
      · rcases ih h2 with h3 | h4
        · exact Or.inl (List.mem_cons_of_mem _ h3)
        · exact Or.inr h4

lemma replaceFirst_map_pid {pid : ℕ} {nit : CartItem} (hn : nit.product_id = pid) :
    ∀ cart : List CartItem,
      (replaceFirst cart pid nit).map CartItem.product_id = cart.map CartItem.product_id := by
  intro cart
  induction cart with
  | nil => rfl
  | cons hd tl ih =>
    rw [replaceFirst]
    by_cases hp : hd.product_id = pid
    · rw [if_pos hp]
      simp [hn, hp]
    · rw [if_neg hp]
      simp [ih]

lemma cartLine_none_not_mem {cart : List CartItem} {pid : ℕ}
    (h : cartLine cart pid = none) : ∀ it ∈ cart, it.product_id ≠ pid := by
  induction cart with
  | nil => intro it hit; simp at hit
  | cons hd tl ih =>
    rw [cartLine] at h
    by_cases hp : hd.product_id = pid
    · rw [if_pos hp] at h
      exact absurd h (by simp)
    · rw [if_neg hp] at h
      intro it hit
      rcases List.mem_cons.mp hit with h1 | h2
      · exact h1 ▸ hp
      · exact ih h it h2

lemma replaceFirst_length (pid : ℕ) (nit : CartItem) :
    ∀ cart : List CartItem, (replaceFirst cart pid nit).length = cart.length := by
  intro cart
  induction cart with
  | nil => rfl
  | cons hd tl ih =>
    rw [replaceFirst]
    by_cases hp : hd.product_id = pid
    · rw [if_pos hp]
      simp
    · rw [if_neg hp]
      simp [ih]

/-- C8: `add_item_to_cart` rejects, leaving the cart unchanged, every request
with `quantity ≤ 0` and every request whose quantity — alone or combined with
the existing cart line for the same product — exceeds the product's current
stock; hence on success every cart line is either a pre-existing line or the
line just priced, and the latter satisfies `0 < quantity ≤ current stock`. -/
theorem add_item_to_cart_validates (cart : List CartItem) (p : Product) (q : ℤ)
    (batch expiry : String) (hpos : ∀ it ∈ cart, 0 < it.quantity) :
    ((q ≤ 0 ∨ p.current_stock < q ∨ p.current_stock < cartQty cart p.id + q) →
      (add_item_to_cart cart p q batch expiry).1 = false ∧
        (add_item_to_cart cart p q batch expiry).2.2 = cart)
  ∧ ((add_item_to_cart cart p q batch expiry).1 = true →
      ∀ x ∈ (add_item_to_cart cart p q batch expiry).2.2,
        x ∈ cart ∨ (x.product_id = p.id ∧ 0 < x.quantity ∧ x.quantity ≤ p.current_stock)) := by
  constructor
  · rintro (hq | hs | hc)
    · unfold add_item_to_cart
      rw [if_pos hq]
      exact ⟨rfl, rfl⟩
    · unfold add_item_to_cart
      by_cases hq : q ≤ 0
      · rw [if_pos hq]
        exact ⟨rfl, rfl⟩
      · rw [if_neg hq, if_pos hs]
        exact ⟨rfl, rfl⟩
    · by_cases hq : q ≤ 0
      · unfold add_item_to_cart
        rw [if_pos hq]
        exact ⟨rfl, rfl⟩
      by_cases hs : p.current_stock < q
      · unfold add_item_to_cart
        rw [if_neg hq, if_pos hs]
        exact ⟨rfl, rfl⟩
      cases hline : cartLine cart p.id with
      | none =>
        exfalso
        apply hs
        unfold cartQty at hc
        rw [hline] at hc
        simpa using hc
      | some it =>
        have hlt : p.current_stock < it.quantity + q := by
          unfold cartQty at hc
          rw [hline] at hc
          exact hc
        unfold add_item_to_cart
        rw [if_neg hq, if_neg hs, updateExisting_exceeds p q cart it hline hlt]
        exact ⟨rfl, rfl⟩
  · intro htrue x hx
    by_cases hq : q ≤ 0
    · unfold add_item_to_cart at htrue
      rw [if_pos hq] at htrue
      simp at htrue
    by_cases hs : p.current_stock < q
    · unfold add_item_to_cart at htrue
      rw [if_neg hq, if_pos hs] at htrue
      simp at htrue
    cases hline : cartLine cart p.id with
    | none =>
      have hupd := updateExisting_none p q cart hline
      unfold add_item_to_cart at hx
      rw [if_neg hq, if_neg hs, hupd] at hx
      rcases List.mem_append.mp hx with h1 | h2
      · exact Or.inl h1
      · right
        have hx2 : x = newCartItem p q batch expiry := by simpa using h2
        subst hx2
        refine ⟨rfl, ?_, le_of_not_lt hs⟩
        show (0:ℤ) < q
        omega
    | some it =>
      by_cases hlt : p.current_stock < it.quantity + q
      · have hupd := updateExisting_exceeds p q cart it hline hlt
        unfold add_item_to_cart at htrue
        rw [if_neg hq, if_neg hs, hupd] at htrue
        simp at htrue
      · have hupd := updateExisting_fits p q cart it hline hlt
        unfold add_item_to_cart at hx
        rw [if_neg hq, if_neg hs, hupd] at hx
        rcases replaceFirst_mem hx with h1 | h2
        · exact Or.inl h1
        · right
          subst h2
          obtain ⟨hmem, hpid⟩ := cartLine_mem hline
          have hq0 := hpos it hmem
          refine ⟨hpid, by simp; omega, ?_⟩
          simpa using le_of_not_lt hlt

/-- C8, witness: a request of quantity 0 is rejected with the cart intact. -/
theorem add_item_to_cart_validates_witness :
    (add_item_to_cart [] ⟨1, "Tonic", "30049012", "Nos", 300, 55, 135, 10⟩ 0 "" "").1 = false ∧
      (add_item_to_cart [] ⟨1, "Tonic", "30049012", "Nos", 300, 55, 135, 10⟩ 0 "" "").2.2 = [] :=
  (add_item_to_cart_validates [] ⟨1, "Tonic", "30049012", "Nos", 300, 55, 135, 10⟩ 0 "" ""
    (by intro it hit; simp at hit)).1 (Or.inl (by norm_num))

/-- C10: adding a product already in the cart never creates a second line for
it — the existing line is merged (quantity summed, amount re-priced at the
stored rate), the addition fails when the combined quantity exceeds stock,
and distinctness of the cart's product ids is preserved by every call. -/
theorem add_item_to_cart_merges (cart : List CartItem) (p : Product) (q : ℤ)
    (batch expiry : String) (hnd : (cart.map CartItem.product_id).Nodup) :
    (((add_item_to_cart cart p q batch expiry).2.2.map CartItem.product_id).Nodup)
  ∧ (∀ it : CartItem, cartLine cart p.id = some it → 0 < q → 0 < it.quantity →
      (p.current_stock < it.quantity + q →
        (add_item_to_cart cart p q batch expiry).1 = false ∧
          (add_item_to_cart cart p q batch expiry).2.2 = cart)
    ∧ (it.quantity + q ≤ p.current_stock →
        add_item_to_cart cart p q batch expiry =
          (true, "Quantity updated in cart",
            replaceFirst cart p.id
              { it with
                quantity := it.quantity + q
                amount := it.rate * ((it.quantity + q : ℤ) : ℚ) })
        ∧ (add_item_to_cart cart p q batch expiry).2.2.map CartItem.product_id
            = cart.map CartItem.product_id
        ∧ (add_item_to_cart cart p q batch expiry).2.2.length = cart.length)) := by
  constructor
  · by_cases hq : q ≤ 0
    · unfold add_item_to_cart
      rw [if_pos hq]
      exact hnd
    by_cases hs : p.current_stock < q
    · unfold add_item_to_cart
      rw [if_neg hq, if_pos hs]
      exact hnd
    cases hline : cartLine cart p.id with
    | none =>
      have hupd := updateExisting_none p q cart hline
      unfold add_item_to_cart
      rw [if_neg hq, if_neg hs, hupd]
      have hnotmem := cartLine_none_not_mem hline
      simp only [List.map_append]
      rw [List.nodup_append]
      refine ⟨hnd, by simp [newCartItem], ?_⟩
      intro a ha hb
      simp only [List.map_cons, List.map_nil, List.mem_singleton, newCartItem] at hb
      obtain ⟨y, hy, rfl⟩ := List.mem_map.mp ha
      exact hnotmem y hy hb
    | some it =>
      by_cases hlt : p.current_stock < it.quantity + q
      · have hupd := updateExisting_exceeds p q cart it hline hlt
        unfold add_item_to_cart
        rw [if_neg hq, if_neg hs, hupd]
        exact hnd
      · have hupd := updateExisting_fits p q cart it hline hlt
        unfold add_item_to_cart
        rw [if_neg hq, if_neg hs, hupd]
        rw [replaceFirst_map_pid (by simpa using (cartLine_mem hline).2)]
        exact hnd
  · intro it hline hq0 hitq
    have hq : ¬ q ≤ 0 := by omega
    constructor
    · intro hlt
      by_cases hs : p.current_stock < q
      · unfold add_item_to_cart
        rw [if_neg hq, if_pos hs]
        exact ⟨rfl, rfl⟩
      · have hupd := updateExisting_exceeds p q cart it hline hlt
        unfold add_item_to_cart
        rw [if_neg hq, if_neg hs, hupd]
        exact ⟨rfl, rfl⟩
    · intro hfits
      have hs : ¬ p.current_stock < q := by omega
      have hupd := updateExisting_fits p q cart it hline (by omega)
      unfold add_item_to_cart
      rw [if_neg hq, if_neg hs, hupd]
      refine ⟨rfl, ?_, ?_⟩
      · exact replaceFirst_map_pid (by simpa using (cartLine_mem hline).2) cart
      · exact replaceFirst_length _ _ cart

/-- C10, witness: adding 3 more units of a product whose line already holds 2
(stock 10) merges into one line of 5 units, keeps the product-id list and the
cart length unchanged. -/
theorem add_item_to_cart_merges_witness :
    add_item_to_cart [newCartItem ⟨1, "Tonic", "30049012", "Nos", 300, 55, 135, 10⟩ 2 "" ""]
        ⟨1, "Tonic", "30049012", "Nos", 300, 55, 135, 10⟩ 3 "" "" =
      (true, "Quantity updated in cart",
        replaceFirst [newCartItem ⟨1, "Tonic", "30049012", "Nos", 300, 55, 135, 10⟩ 2 "" ""]
          (⟨1, "Tonic", "30049012", "Nos", 300, 55, 135, 10⟩ : Product).id
          { newCartItem ⟨1, "Tonic", "30049012", "Nos", 300, 55, 135, 10⟩ 2 "" "" with
            quantity := (newCartItem ⟨1, "Tonic", "30049012", "Nos", 300, 55, 135, 10⟩
              2 "" "").quantity + 3
            amount := (newCartItem ⟨1, "Tonic", "30049012", "Nos", 300, 55, 135, 10⟩
              2 "" "").rate *
              (((newCartItem ⟨1, "Tonic", "30049012", "Nos", 300, 55, 135, 10⟩
                2 "" "").quantity + 3 : ℤ) : ℚ) })
    ∧ (add_item_to_cart [newCartItem ⟨1, "Tonic", "30049012", "Nos", 300, 55, 135, 10⟩ 2 "" ""]
        ⟨1, "Tonic", "30049012", "Nos", 300, 55, 135, 10⟩ 3 "" "").2.2.map CartItem.product_id
        = [newCartItem ⟨1, "Tonic", "30049012", "Nos", 300, 55, 135, 10⟩ 2 "" ""].map
            CartItem.product_id
    ∧ (add_item_to_cart [newCartItem ⟨1, "Tonic", "30049012", "Nos", 300, 55, 135, 10⟩ 2 "" ""]
        ⟨1, "Tonic", "30049012", "Nos", 300, 55, 135, 10⟩ 3 "" "").2.2.length
        = [newCartItem ⟨1, "Tonic", "30049012", "Nos", 300, 55, 135, 10⟩ 2 "" ""].length :=
  ((add_item_to_cart_merges
      [newCartItem ⟨1, "Tonic", "30049012", "Nos", 300, 55, 135, 10⟩ 2 "" ""]
      ⟨1, "Tonic", "30049012", "Nos", 300, 55, 135, 10⟩ 3 "" "" (by decide)).2
    (newCartItem ⟨1, "Tonic", "30049012", "Nos", 300, 55, 135, 10⟩ 2 "" "")
    rfl (by norm_num) (by decide)).2 (by decide)

/-! ## Totals (`BillingManager.calculate_totals`) -/

/-- The totals dictionary produced by `calculate_totals` and refined by
`_split_tax_by_state`. -/
structure Totals where
  subtotal : ℚ
  discount_amount : ℚ
  taxable_amount : ℚ
  cgst_amount : ℚ
  sgst_amount : ℚ
  igst_amount : ℚ
  total_tax : ℚ
  round_off : ℚ
  grand_total : ℚ
deriving DecidableEq, Repr

/-- The all-zero totals returned for an empty cart. -/
def zeroTotals : Totals := ⟨0, 0, 0, 0, 0, 0, 0, 0, 0⟩

/-- `BillingManager.calculate_totals`: subtotal, discount, a flat 5 % tax
when the bill is a GST bill, and the rounding of the grand total.  The
CGST/SGST/IGST components are left at zero here; `_split_tax_by_state`
distributes them later. -/
def calculate_totals (cart : List CartItem) (is_gst_bill : Bool) : Totals :=
  if cart.isEmpty then zeroTotals
  else
    let subtotal := (cart.map CartItem.amount).sum
    let total_mrp := (cart.map (fun it => it.mrp * (it.quantity : ℚ))).sum
    let total_tax := if is_gst_bill then subtotal * (5/100) else 0
    let grand_total_before_round := subtotal + total_tax
    let grand_total : ℚ := (roundHalfEven grand_total_before_round : ℚ)
    { subtotal := subtotal
      discount_amount := total_mrp - subtotal
      taxable_amount := subtotal
      cgst_amount := 0
      sgst_amount := 0
      igst_amount := 0
      total_tax := total_tax
      round_off := grand_total - grand_total_before_round
      grand_total := grand_total }

/-! ## Jurisdiction split (`BillingManager._split_tax_by_state`) -/

/-- Python's `str.strip()`, modelled executably (Lean's own `String.trim` is
not kernel-reducible): leading and trailing whitespace removed. -/
def pyStrip (s : String) : String :=
  ⟨((s.data.dropWhile Char.isWhitespace).reverse.dropWhile Char.isWhitespace).reverse⟩

/-- `BillingManager._split_tax_by_state`: zero the three components; if the
tax is non-positive or the buyer GSTIN is empty leave them zero; otherwise
compare the stripped company state code with the GSTIN's first two characters
(taken only when the GSTIN has at least two characters, else empty) and
either split the tax in two equal local halves or assign it all to IGST. -/
def split_tax_by_state (state_code_setting : String) (t : Totals)
    (customer_gstin : String) : Totals :=
  if t.total_tax ≤ 0 ∨ customer_gstin = "" then
    { t with cgst_amount := 0, sgst_amount := 0, igst_amount := 0 }
  else
    let company_state_code := pyStrip state_code_setting
    let customer_state_code :=
      if 2 ≤ customer_gstin.length then customer_gstin.take 2 else ""
    if company_state_code ≠ "" ∧ customer_state_code = company_state_code then
      { t with
        cgst_amount := round2 (t.total_tax / 2)
        sgst_amount := round2 (t.total_tax / 2)
        igst_amount := 0 }
    else
      { t with
        cgst_amount := 0
        sgst_amount := 0
        igst_amount := round2 t.total_tax }

/-- C5, counterexample: with total tax 10, a one-character buyer tax id "A"
(whose first two characters are just "A") and seller jurisdiction code "A",
the claim's intra-state case applies (the identifiers match), yet the code
treats a buyer id shorter than two characters as having no jurisdiction and
routes the whole tax to the remote (IGST) component. -/
theorem split_tax_by_state_cex :
    (0:ℚ) < 10 ∧ ("A":String) ≠ "" ∧ "A".take 2 = "A" ∧ pyStrip "A" = "A"
  ∧ (split_tax_by_state "A" { zeroTotals with total_tax := 10 } "A").cgst_amount = 0
  ∧ (split_tax_by_state "A" { zeroTotals with total_tax := 10 } "A").sgst_amount = 0
  ∧ (split_tax_by_state "A" { zeroTotals with total_tax := 10 } "A").igst_amount = 10 := by
  have hcond : ¬ (({ zeroTotals with total_tax := 10 } : Totals).total_tax ≤ 0
      ∨ ("A":String) = "") := by
    simp [zeroTotals]
  have hinner : ¬ ((pyStrip "A" ≠ "") ∧
      ((if 2 ≤ ("A":String).length then ("A":String).take 2 else "") = pyStrip "A")) := by
    simp only [show ¬ (2 ≤ ("A":String).length) by decide, if_neg]
    simp [pyStrip]
  refine ⟨by norm_num, by simp, by decide, by decide, ?_, ?_, ?_⟩
  all_goals unfold split_tax_by_state
  all_goals rw [if_neg hcond, if_neg hinner]
  show round2 (10:ℚ) = 10
  rw [show (10:ℚ) = ((10:ℤ):ℚ) by norm_num, round2_intCast]

/-- C5, amended: all three components are zero when tax is non-positive or
the buyer id is empty; the equal local split happens exactly when the
seller's (stripped) jurisdiction code is non-empty, the buyer id has at
least two characters, and its first two characters equal the seller code;
in every other non-trivial case the whole tax goes to the remote component,
rounded to two decimals. -/
theorem split_tax_by_state_eq (code : String) (t : Totals) (g : String) :
    ((t.total_tax ≤ 0 ∨ g = "") →
      split_tax_by_state code t g =
        { t with cgst_amount := 0, sgst_amount := 0, igst_amount := 0 })
  ∧ ((0 < t.total_tax ∧ g ≠ "" ∧ pyStrip code ≠ "" ∧ 2 ≤ g.length
        ∧ g.take 2 = pyStrip code) →
      split_tax_by_state code t g =
        { t with
          cgst_amount := round2 (t.total_tax / 2)
          sgst_amount := round2 (t.total_tax / 2)
          igst_amount := 0 })
  ∧ ((0 < t.total_tax ∧ g ≠ ""
        ∧ ¬ (pyStrip code ≠ "" ∧ 2 ≤ g.length ∧ g.take 2 = pyStrip code)) →
      split_tax_by_state code t g =
        { t with
          cgst_amount := 0
          sgst_amount := 0
          igst_amount := round2 t.total_tax }) := by
  refine ⟨?_, ?_, ?_⟩
  · intro h
    unfold split_tax_by_state
    rw [if_pos h]
  · rintro ⟨h1, h2, h3, h4, h5⟩
    unfold split_tax_by_state
    rw [if_neg (by push_neg; exact ⟨by linarith, h2⟩)]
    rw [if_pos ⟨h3, by rw [if_pos h4]; exact h5⟩]
  · rintro ⟨h1, h2, h3⟩
    unfold split_tax_by_state
    rw [if_neg (by push_neg; exact ⟨by linarith, h2⟩)]
    rw [if_neg ?_]
    intro hcontra
    apply h3
    rcases hcontra with ⟨hc1, hc2⟩
    by_cases hlen : 2 ≤ g.length
    · rw [if_pos hlen] at hc2
      exact ⟨hc1, hlen, hc2⟩
    · rw [if_neg hlen] at hc2
      exact absurd hc2.symm hc1

/-- C5, witness: the specification's worked example — total tax 13.50 with a
same-jurisdiction buyer ("19…" against seller code "19") splits into CGST =
SGST = 6.75 and IGST = 0. -/
theorem split_tax_by_state_eq_witness :
    split_tax_by_state "19" { zeroTotals with total_tax := 27/2 } "19ABCDE1234F1Z5" =
      { ({ zeroTotals with total_tax := 27/2 } : Totals) with
        cgst_amount := round2 ((27/2 : ℚ) / 2)
        sgst_amount := round2 ((27/2 : ℚ) / 2)
        igst_amount := 0 } :=
  (split_tax_by_state_eq "19" { zeroTotals with total_tax := 27/2 } "19ABCDE1234F1Z5").2.1
    ⟨by norm_num [zeroTotals], by simp, by decide, by decide, by decide⟩

/-! ## Invoice sequencer (`BillingManager.generate_invoice_number`)

The Python function reads the current clock to build the fiscal-year label
and queries storage for existing invoice numbers; here the label is a
parameter and storage is abstracted as the oracle `ex`, true on the numbers
already present (`db.get_bill_by_invoice_number(candidate) is not None`). -/

/-- The fiscal-year scope label: month ≥ 4 starts the scope at the current
year, otherwise at the previous one; two-digit year pair. -/
def fyLabel (year month : ℕ) : String :=
  if 4 ≤ month then toString (year % 100) ++ "-" ++ toString ((year + 1) % 100)
  else toString ((year - 1) % 100) ++ "-" ++ toString (year % 100)

/-- Candidate invoice number `f"{prefix}/{running}/{fy_str}"`. -/
def mkCandidate (pfx : String) (n : ℕ) (fy : String) : String :=
  pfx ++ "/" ++ toString n ++ "/" ++ fy

/-- The bounded retry loop: advance `running` past taken candidates, at most
`fuel` probes; returns the final value of `running` (which, when the fuel is
exhausted, is `c + fuel` and has not been probed at all). -/
def findFree (ex : String → Bool) (pfx fy : String) : ℕ → ℕ → ℕ
  | 0, running => running
  | fuel + 1, running =>
    if ex (mkCandidate pfx running fy) then findFree ex pfx fy fuel (running + 1)
    else running

/-- `BillingManager.generate_invoice_number`: both on the loop's `break` and
on its exhaustion (`for … else`) the returned number is the candidate built
from the final `running`, and `running + 1` is persisted as the next counter
value (returned here as the second component). -/
def generate_invoice_number (ex : String → Bool) (pfx fy : String) (c : ℕ) : String × ℕ :=
  (mkCandidate pfx (findFree ex pfx fy 1000 c) fy, findFree ex pfx fy 1000 c + 1)

/-- The sequencer as the specification words it: same bounded retry, but
after 1000 failed attempts it "falls back to a timestamp-derived number"
(`ts` being the timestamp).  Stated from the spec only, for comparison with
`generate_invoice_number`. -/
def generate_invoice_number_specver (ex : String → Bool) (pfx fy : String)
    (c ts : ℕ) : String × ℕ :=
  match (List.range 1000).find? (fun i => ! ex (mkCandidate pfx (c + i) fy)) with
  | some i => (mkCandidate pfx (c + i) fy, c + i + 1)
  | none => (mkCandidate pfx ts fy, c + 1000 + 1)

lemma findFree_all_taken (ex : String → Bool) (pfx fy : String) :
    ∀ fuel c, (∀ i, i < fuel → ex (mkCandidate pfx (c + i) fy) = true) →
      findFree ex pfx fy fuel c = c + fuel := by
  intro fuel
  induction fuel with
  | zero => intro c _; simp [findFree]
  | succ n ih =>
    intro c h
    have h0 : ex (mkCandidate pfx c fy) = true := by simpa using h 0 (by omega)
    simp only [findFree]
    rw [if_pos h0, ih (c + 1) (fun i hi => by
      have := h (i + 1) (by omega)
      rwa [show c + (i + 1) = c + 1 + i by omega] at this)]
    omega

lemma findFree_first_free (ex : String → Bool) (pfx fy : String) :
    ∀ fuel c k, k < fuel →
      (∀ i, i < k → ex (mkCandidate pfx (c + i) fy) = true) →
      ex (mkCandidate pfx (c + k) fy) = false →
      findFree ex pfx fy fuel c = c + k := by
  intro fuel
  induction fuel with
  | zero => intro c k hk; omega
  | succ n ih =>
    intro c k hk hall hfree
    simp only [findFree]
    cases k with
    | zero =>
      have h0 : ex (mkCandidate pfx c fy) = false := by simpa using hfree
      rw [if_neg (by simp [h0])]
      omega
    | succ m =>
      have h0 : ex (mkCandidate pfx c fy) = true := by simpa using hall 0 (by omega)
      rw [if_pos h0, ih (c + 1) m (by omega)
        (fun i hi => by
          have := hall (i + 1) (by omega)
          rwa [show c + (i + 1) = c + 1 + i by omega] at this)
        (by rwa [show c + (m + 1) = c + 1 + m by omega] at hfree)]
      omega

/-- C4, counterexample: when every candidate is already taken, the code's
fallback after 1000 attempts is the next counter-format candidate
`"NH/1001/25-26"`, not a timestamp-derived number as the claim states (the
spec-worded sequencer with timestamp 1760227200 would return
`"NH/1760227200/25-26"`). -/
theorem generate_invoice_number_fallback_cex :
    (generate_invoice_number (fun _ => true) "NH" "25-26" 1).1 = "NH/1001/25-26"
  ∧ (generate_invoice_number_specver (fun _ => true) "NH" "25-26" 1 1760227200).1
      = "NH/1760227200/25-26"
  ∧ ("NH/1001/25-26" : String) ≠ "NH/1760227200/25-26" := by
  refine ⟨?_, ?_, by decide⟩
  · unfold generate_invoice_number
    rw [findFree_all_taken (fun _ => true) "NH" "25-26" 1000 1 (fun i _ => rfl)]
    decide
  · have hnone : (List.range 1000).find?
        (fun i => ! (fun (_ : String) => true) (mkCandidate "NH" (1 + i) "25-26")) = none := by
      apply List.find?_eq_none.mpr
      intro x _
      simp
    unfold generate_invoice_number_specver
    rw [hnone]
    decide

/-- C4 (amended): the sequencer composes each candidate
`"{prefix}/{c}/{scopeLabel}"` from the current counter, retries while the
candidate exists, up to 1000 attempts; on success it returns the first free
candidate `c + k` and persists `c + k + 1`; when all 1000 candidates exist it
returns the unprobed next candidate `c + 1000` in the same counter format
(not a timestamp-derived number) and persists `c + 1001`. -/
theorem generate_invoice_number_eq (ex : String → Bool) (pfx fy : String) (c : ℕ) :
    (∀ k, k < 1000 → (∀ i, i < k → ex (mkCandidate pfx (c + i) fy) = true) →
      ex (mkCandidate pfx (c + k) fy) = false →
      generate_invoice_number ex pfx fy c = (mkCandidate pfx (c + k) fy, c + k + 1))
  ∧ ((∀ i, i < 1000 → ex (mkCandidate pfx (c + i) fy) = true) →
      generate_invoice_number ex pfx fy c = (mkCandidate pfx (c + 1000) fy, c + 1000 + 1)) := by
  constructor
  · intro k hk hall hfree
    unfold generate_invoice_number
    rw [findFree_first_free ex pfx fy 1000 c k hk hall hfree]
  · intro hall
    unfold generate_invoice_number
    rw [findFree_all_taken ex pfx fy 1000 c hall]

/-- C4, witness: with a fresh scope (counter 1, no stored invoice) the first
call returns `"NH/1/25-26"` and persists 2; with the counter at 2 and only
`"NH/1/25-26"` stored, the next call returns `"NH/2/25-26"` and persists 3. -/
theorem generate_invoice_number_eq_witness :
    generate_invoice_number (fun _ => false) "NH" "25-26" 1 = ("NH/1/25-26", 2)
  ∧ generate_invoice_number (fun s => s == "NH/1/25-26") "NH" "25-26" 2
      = ("NH/2/25-26", 3) := by
  constructor
  · have h := (generate_invoice_number_eq (fun _ => false) "NH" "25-26" 1).1 0 (by norm_num)
      (fun i hi => absurd hi (by omega)) rfl
    rw [h]
    decide
  · have h := (generate_invoice_number_eq (fun s => s == "NH/1/25-26") "NH" "25-26" 2).1 0
      (by norm_num) (fun i hi => absurd hi (by omega)) (by decide)
    rw [h]
    decide

/-! ## Durable store (`DatabaseManager`, `src/database/db_manager.py`)

Tables are lists of rows.  `DatabaseManager.create_bill` runs all its writes
on one connection and commits at the end; `get_connection` rolls the
transaction back and re-raises when any statement throws.  The optional
`failAt` index injects such an exception at the corresponding write (0 the
bill insert, then three writes per item, and finally the commit itself);
whenever it fires, the resulting store is the unchanged pre-attempt store. -/

/-- A `customers` table row. -/
structure Customer where
  id : ℕ
  name : String
  phone : String
  email : String
  address : String
  city : String
  state : String
  pin_code : String
  gstin : String
deriving DecidableEq, Repr

/-- The `bill_data` dictionary assembled by `BillingManager.create_bill`. -/
structure BillData where
  invoice_number : String
  customer_id : Option ℕ
  customer_name : String
  customer_phone : String
  customer_address : String
  customer_city : String
  customer_pin_code : String
  customer_gstin : String
  sales_person_id : ℕ
  is_gst_bill : Bool
  subtotal : ℚ
  discount_amount : ℚ
  taxable_amount : ℚ
  cgst_amount : ℚ
  sgst_amount : ℚ
  igst_amount : ℚ
  total_tax : ℚ
  round_off : ℚ
  grand_total : ℚ
  created_by : ℕ
deriving DecidableEq, Repr

/-- A `bills` table row: the bill data plus the assigned row id. -/
structure Bill extends BillData where
  id : ℕ
deriving DecidableEq, Repr

/-- A `bill_items` table row. -/
structure BillItem where
  bill_id : ℕ
  product_id : ℕ
  product_name : String
  hsn_code : String
  batch_number : String
  expiry_date : String
  quantity : ℤ
  unit : String
  mrp : ℚ
  discount_percent : ℚ
  rate : ℚ
  amount : ℚ
deriving DecidableEq, Repr

/-- A `stock_history` table row. -/
structure StockRow where
  product_id : ℕ
  change_type : String
  quantity_before : ℤ
  quantity_after : ℤ
  quantity_changed : ℤ
  bill_id : ℕ
  notes : String
  created_by : ℕ
deriving DecidableEq, Repr

/-- The durable store. -/
structure DB where
  products : List Product
  customers : List Customer
  bills : List Bill
  bill_items : List BillItem
  stock_history : List StockRow
deriving DecidableEq, Repr

/-- `sqlite` row-id assignment for a fresh `bills` insert (`lastrowid`). -/
def nextBillId (db : DB) : ℕ := (db.bills.map Bill.id).foldr max 0 + 1

/-- First product with the given id (`SELECT … FROM products WHERE id=?`). -/
def findProduct : List Product → ℕ → Option Product
  | [], _ => none
  | p :: rest, pid => if p.id = pid then some p else findProduct rest pid

/-- Current stock of a product id, 0 when absent. -/
def stockOf (db : DB) (pid : ℕ) : ℤ :=
  match findProduct db.products pid with
  | some p => p.current_stock
  | none => 0

/-- The `INSERT INTO bills …` write. -/
def insertBill (bd : BillData) (bid : ℕ) (db : DB) : DB :=
  { db with bills := db.bills ++ [⟨bd, bid⟩] }

/-- The `INSERT INTO bill_items …` write for one cart line. -/
def insertBillItem (bid : ℕ) (it : CartItem) (db : DB) : DB :=
  { db with bill_items := db.bill_items ++
      [{ bill_id := bid, product_id := it.product_id, product_name := it.product_name,
         hsn_code := it.hsn_code, batch_number := it.batch_number,
         expiry_date := it.expiry_date, quantity := it.quantity, unit := it.unit,
         mrp := it.mrp, discount_percent := it.discount_percent, rate := it.rate,
         amount := it.amount }] }

/-- The `UPDATE products SET current_stock = current_stock - ? WHERE id=?` write. -/
def updateStock (it : CartItem) (db : DB) : DB :=
  { db with products := db.products.map (fun p =>
      if p.id = it.product_id then { p with current_stock := p.current_stock - it.quantity }
      else p) }

/-- The `INSERT INTO stock_history … SELECT … FROM products WHERE id=?` write:
one ledger row per product row matching the id (so none when the product is
absent), reading the post-decrement stock back out of the table. -/
def insertStockHistory (bid cb : ℕ) (it : CartItem) (db : DB) : DB :=
  { db with stock_history := db.stock_history ++
      ((db.products.filter (fun p => p.id = it.product_id)).map (fun p =>
        { product_id := it.product_id, change_type := "SALE",
          quantity_before := p.current_stock + it.quantity,
          quantity_after := p.current_stock,
          quantity_changed := -it.quantity, bill_id := bid,
          notes := "Stock reduced due to sale", created_by := cb })) }

/-- The three writes `DatabaseManager.create_bill` performs per cart line. -/
def applyItem (bid cb : ℕ) (db : DB) (it : CartItem) : DB :=
  insertStockHistory bid cb it (updateStock it (insertBillItem bid it db))

/-- The per-item write loop with the injected failure: write `k` raising is
`failAt = some k`; `none` is the rolled-back outcome. -/
def runItems (failAt : Option ℕ) (bid cb : ℕ) : List CartItem → ℕ → DB → Option (DB × ℕ)
  | [], k, db => some (db, k)
  | it :: rest, k, db =>
    if failAt = some k then none
    else
      let db1 := insertBillItem bid it db
      if failAt = some (k + 1) then none
      else
        let db2 := updateStock it db1
        if failAt = some (k + 2) then none
        else runItems failAt bid cb rest (k + 3) (insertStockHistory bid cb it db2)

/-- `DatabaseManager.create_bill`: one transaction inserting the bill row,
then per item the line insert, the stock decrement and the ledger insert,
then the commit.  A duplicate invoice number violates the UNIQUE constraint
on the bill insert; any raised exception rolls the whole unit back, leaving
the store untouched.  Returns `(success, message, store)`. -/
def db_create_bill (failAt : Option ℕ) (bd : BillData) (items : List CartItem)
    (db : DB) : Bool × String × DB :=
  if db.bills.any (fun b => b.invoice_number = bd.invoice_number) then
    (false, "UNIQUE constraint failed: bills.invoice_number", db)
  else if failAt = some 0 then (false, "Storage failure", db)
  else
    match runItems failAt (nextBillId db) bd.created_by items 1
        (insertBill bd (nextBillId db) db) with
    | none => (false, "Storage failure", db)
    | some (db2, k) =>
      if failAt = some k then (false, "Storage failure", db)
      else (true, "Bill created successfully", db2)

lemma runItems_fail (failAt : Option ℕ) (bid cb : ℕ) :
    ∀ items : List CartItem, ∀ k0 j : ℕ, ∀ db : DB, failAt = some j → k0 ≤ j →
      j < k0 + 3 * items.length → runItems failAt bid cb items k0 db = none := by
  intro items
  induction items with
  | nil =>
    intro k0 j db hfa h1 h2
    simp only [List.length_nil] at h2
    omega
  | cons it rest ih =>
    intro k0 j db hfa h1 h2
    subst hfa
    simp only [runItems]
    by_cases e0 : j = k0
    · rw [if_pos (by rw [e0])]
    · rw [if_neg (by simpa using e0)]
      by_cases e1 : j = k0 + 1
      · rw [if_pos (by rw [e1])]
      · rw [if_neg (by simpa using e1)]
        by_cases e2 : j = k0 + 2
        · rw [if_pos (by rw [e2])]
        · rw [if_neg (by simpa using e2)]
          apply ih (k0 + 3) j _ rfl (by omega)
          simp only [List.length_cons] at h2
          omega

lemma runItems_some (failAt : Option ℕ) (bid cb : ℕ) :
    ∀ items : List CartItem, ∀ k0 : ℕ, ∀ db db2 : DB, ∀ k2 : ℕ,
      runItems failAt bid cb items k0 db = some (db2, k2) →
      k2 = k0 + 3 * items.length ∧ db2 = items.foldl (applyItem bid cb) db := by
  intro items
  induction items with
  | nil =>
    intro k0 db db2 k2 h
    simp only [runItems, Option.some.injEq, Prod.mk.injEq] at h
    obtain ⟨hdb, hk⟩ := h
    refine ⟨?_, hdb.symm⟩
    simp only [List.length_nil]
    omega
  | cons it rest ih =>
    intro k0 db db2 k2 h
    simp only [runItems] at h
    by_cases e0 : failAt = some k0
    · rw [if_pos e0] at h
      exact absurd h (by simp)
    rw [if_neg e0] at h
    by_cases e1 : failAt = some (k0 + 1)
    · rw [if_pos e1] at h
      exact absurd h (by simp)
    rw [if_neg e1] at h
    by_cases e2 : failAt = some (k0 + 2)
    · rw [if_pos e2] at h
      exact absurd h (by simp)
    rw [if_neg e2] at h
    obtain ⟨hk, hdb⟩ := ih (k0 + 3) _ db2 k2 h
    refine ⟨?_, ?_⟩
    · simp only [List.length_cons]
      omega
    · rw [hdb]
      rfl

/-- C2: any failing write in the commit unit (bill insert, per-line inserts
and stock decrement, ledger insert, or the commit itself) makes the whole
call fail, and every failing call leaves the store — bills, bill lines,
product stocks and ledger alike — exactly as it was. -/
theorem db_create_bill_atomic (failAt : Option ℕ) (bd : BillData) (items : List CartItem)
    (db : DB) :
    (∀ k, failAt = some k → k ≤ 1 + 3 * items.length →
      (db_create_bill failAt bd items db).1 = false)
  ∧ ((db_create_bill failAt bd items db).1 = false →
      (db_create_bill failAt bd items db).2.2 = db) := by
  constructor
  · intro k hfa hk
    unfold db_create_bill
    by_cases hdup : db.bills.any (fun b => b.invoice_number = bd.invoice_number)
    · rw [if_pos hdup]
    · rw [if_neg hdup]
      by_cases h0 : failAt = some 0
      · rw [if_pos h0]
      · rw [if_neg h0]
        have hkpos : 1 ≤ k := by
          rcases Nat.eq_zero_or_pos k with hz | hp
          · exact absurd (hz ▸ hfa) h0
          · omega
        by_cases hlt : k < 1 + 3 * items.length
        · rw [runItems_fail failAt (nextBillId db) bd.created_by items 1 k _ hfa hkpos hlt]
        · have hke : k = 1 + 3 * items.length := by omega
          cases hrun : runItems failAt (nextBillId db) bd.created_by items 1
              (insertBill bd (nextBillId db) db) with
          | none => rfl
          | some pr =>
            obtain ⟨db2, k2⟩ := pr
            have hsome := runItems_some failAt (nextBillId db) bd.created_by items 1 _ db2 k2 hrun
            show (if failAt = some k2 then (false, "Storage failure", db)
              else (true, "Bill created successfully", db2)).1 = false
            rw [if_pos (by rw [hfa, hsome.1, hke])]
  · intro hfalse
    unfold db_create_bill at hfalse ⊢
    by_cases hdup : db.bills.any (fun b => b.invoice_number = bd.invoice_number)
    · rw [if_pos hdup]
    · rw [if_neg hdup] at hfalse ⊢
      by_cases h0 : failAt = some 0
      · rw [if_pos h0]
      · rw [if_neg h0] at hfalse ⊢
        cases hrun : runItems failAt (nextBillId db) bd.created_by items 1
            (insertBill bd (nextBillId db) db) with
        | none => rfl
        | some pr =>
          obtain ⟨db2, k2⟩ := pr
          rw [hrun] at hfalse
          by_cases hc : failAt = some k2
          · show (if failAt = some k2 then (false, "Storage failure", db)
              else (true, "Bill created successfully", db2)).2.2 = db
            rw [if_pos hc]
          · have hfalse2 : (if failAt = some k2
                then ((false, "Storage failure", db) : Bool × String × DB)
                else (true, "Bill created successfully", db2)).1 = false := hfalse
            rw [if_neg hc] at hfalse2
            simp at hfalse2

/-- C2, witness: injecting a failure at write 2 (the stock decrement of the
only line) fails the call and leaves the concrete store untouched. -/
theorem db_create_bill_atomic_witness :
    (db_create_bill (some 2)
      ⟨"NH/1/25-26", some 1, "Asha", "", "", "", "", "", 1, false,
        270, 330, 270, 0, 0, 0, 0, 0, 270, 7⟩
      [⟨1, "Tonic", "30049012", "", "", 2, "Nos", 300, 55, 135, 270⟩]
      ⟨[⟨1, "Tonic", "30049012", "Nos", 300, 55, 135, 10⟩], [], [], [], []⟩).1 = false
  ∧ (db_create_bill (some 2)
      ⟨"NH/1/25-26", some 1, "Asha", "", "", "", "", "", 1, false,
        270, 330, 270, 0, 0, 0, 0, 0, 270, 7⟩
      [⟨1, "Tonic", "30049012", "", "", 2, "Nos", 300, 55, 135, 270⟩]
      ⟨[⟨1, "Tonic", "30049012", "Nos", 300, 55, 135, 10⟩], [], [], [], []⟩).2.2
      = ⟨[⟨1, "Tonic", "30049012", "Nos", 300, 55, 135, 10⟩], [], [], [], []⟩ := by
  have h := db_create_bill_atomic (some 2)
    ⟨"NH/1/25-26", some 1, "Asha", "", "", "", "", "", 1, false,
      270, 330, 270, 0, 0, 0, 0, 0, 270, 7⟩
    [⟨1, "Tonic", "30049012", "", "", 2, "Nos", 300, 55, 135, 270⟩]
    ⟨[⟨1, "Tonic", "30049012", "Nos", 300, 55, 135, 10⟩], [], [], [], []⟩
  have h1 := h.1 2 rfl (by simp)
  exact ⟨h1, h.2 h1⟩

lemma findProduct_mem_id : ∀ {l : List Product} {pid : ℕ} {p : Product},
    findProduct l pid = some p → p ∈ l ∧ p.id = pid := by
  intro l
  induction l with
  | nil => intro pid p h; simp [findProduct] at h
  | cons hd rest ih =>
    intro pid p h
    rw [findProduct] at h
    by_cases hp : hd.id = pid
    · rw [if_pos hp] at h
      obtain rfl : hd = p := by injection h
      exact ⟨List.mem_cons_self _ _, hp⟩
    · rw [if_neg hp] at h
      obtain ⟨hmem, hid⟩ := ih h
      exact ⟨List.mem_cons_of_mem _ hmem, hid⟩

lemma findProduct_isSome : ∀ {l : List Product} {pid : ℕ},
    pid ∈ l.map Product.id → ∃ p, findProduct l pid = some p := by
  intro l
  induction l with
  | nil => intro pid h; simp at h
  | cons hd rest ih =>
    intro pid h
    rw [findProduct]
    by_cases hp : hd.id = pid
    · exact ⟨hd, if_pos hp⟩
    · rw [List.map_cons, List.mem_cons] at h
      rcases h with h1 | h2
      · exact absurd h1.symm hp
      · obtain ⟨p, hp2⟩ := ih h2
        exact ⟨p, by rw [if_neg hp]; exact hp2⟩

lemma findProduct_map {f : Product → Product} (hf : ∀ p, (f p).id = p.id) :
    ∀ (l : List Product) (pid : ℕ),
      findProduct (l.map f) pid = (findProduct l pid).map f := by
  intro l pid
  induction l with
  | nil => rfl
  | cons p rest ih =>
    simp only [List.map_cons, findProduct]
    by_cases hp : p.id = pid
    · rw [if_pos (by rw [hf p]; exact hp), if_pos hp]
      rfl
    · rw [if_neg (by rw [hf p]; exact hp), if_neg hp, ih]

lemma filter_map_id {f : Product → Product} (hf : ∀ p, (f p).id = p.id) :
    ∀ (l : List Product) (pid : ℕ),
      (l.map f).filter (fun p => p.id = pid) = (l.filter (fun p => p.id = pid)).map f := by
  intro l pid
  induction l with
  | nil => rfl
  | cons p rest ih =>
    simp only [List.map_cons, List.filter_cons]
    by_cases hp : p.id = pid
    · rw [if_pos (by simp [hf p, hp]), if_pos (by simp [hp])]
      simp only [List.map_cons]
      rw [ih]
    · rw [if_neg (by simp [hf p, hp]), if_neg (by simp [hp]), ih]

lemma filter_eq_single : ∀ {l : List Product} {pid : ℕ} {p : Product},
    (l.map Product.id).Nodup → findProduct l pid = some p →
    l.filter (fun x => x.id = pid) = [p] := by
  intro l
  induction l with
  | nil => intro pid p _ hfind; simp [findProduct] at hfind
  | cons hd rest ih =>
    intro pid p hnd hfind
    rw [findProduct] at hfind
    rw [List.map_cons, List.nodup_cons] at hnd
    by_cases hp : hd.id = pid
    · rw [if_pos hp] at hfind
      obtain rfl : hd = p := by injection hfind
      rw [List.filter_cons, if_pos (by simp [hp])]
      have hrest : rest.filter (fun x => x.id = pid) = [] := by
        rw [List.filter_eq_nil_iff]
        intro x hx
        simp only [decide_eq_true_eq]
        intro hxe
        exact hnd.1 (hp ▸ hxe ▸ List.mem_map_of_mem Product.id hx)
      rw [hrest]
    · rw [if_neg hp] at hfind
      rw [List.filter_cons, if_neg (by simp [hp])]
      exact ih hnd.2 hfind

lemma applyItem_products (bid cb : ℕ) (db : DB) (it : CartItem) :
    (applyItem bid cb db it).products
      = db.products.map (fun p => if p.id = it.product_id
          then { p with current_stock := p.current_stock - it.quantity } else p) := rfl

lemma applyItem_bills (bid cb : ℕ) (db : DB) (it : CartItem) :
    (applyItem bid cb db it).bills = db.bills := rfl

lemma applyItem_ids (bid cb : ℕ) (db : DB) (it : CartItem) :
    (applyItem bid cb db it).products.map Product.id = db.products.map Product.id := by
  rw [applyItem_products, List.map_map]
  exact List.map_congr_left (fun p _ => by
    by_cases hp : p.id = it.product_id <;> simp [hp])

lemma applyItem_stock_eq (bid cb : ℕ) (db : DB) (it : CartItem)
    (hmem : it.product_id ∈ db.products.map Product.id) :
    stockOf (applyItem bid cb db it) it.product_id
      = stockOf db it.product_id - it.quantity := by
  obtain ⟨p, hp⟩ := findProduct_isSome hmem
  have hpid := (findProduct_mem_id hp).2
  unfold stockOf
  rw [applyItem_products,
    findProduct_map (fun p => by by_cases h : p.id = it.product_id <;> simp [h]), hp]
  simp [hpid]

lemma applyItem_stock_ne (bid cb : ℕ) (db : DB) (it : CartItem) (pid : ℕ)
    (hne : pid ≠ it.product_id) :
    stockOf (applyItem bid cb db it) pid = stockOf db pid := by
  unfold stockOf
  rw [applyItem_products,
    findProduct_map (fun p => by by_cases h : p.id = it.product_id <;> simp [h])]
  cases hfp : findProduct db.products pid with
  | none => rfl
  | some p =>
    have hpp := (findProduct_mem_id hfp).2
    simp [hpp, hne]

lemma applyItem_hist (bid cb : ℕ) (db : DB) (it : CartItem)
    (hnd : (db.products.map Product.id).Nodup)
    (hmem : it.product_id ∈ db.products.map Product.id) :
    (applyItem bid cb db it).stock_history
      = db.stock_history ++
        [{ product_id := it.product_id, change_type := "SALE",
           quantity_before := stockOf db it.product_id,
           quantity_after := stockOf db it.product_id - it.quantity,
           quantity_changed := -it.quantity, bill_id := bid,
           notes := "Stock reduced due to sale", created_by := cb }] := by
  obtain ⟨p, hp⟩ := findProduct_isSome hmem
  have hpid := (findProduct_mem_id hp).2
  have hstock : stockOf db it.product_id = p.current_stock := by
    unfold stockOf
    rw [hp]
  show db.stock_history ++
      ((db.products.map (fun p => if p.id = it.product_id
          then { p with current_stock := p.current_stock - it.quantity } else p)).filter
        (fun x => x.id = it.product_id)).map _ = _
  rw [filter_map_id (fun p => by by_cases h : p.id = it.product_id <;> simp [h]),
    filter_eq_single hnd hp]
  simp only [List.map_cons, List.map_nil]
  rw [hstock, if_pos hpid]
  simp only [List.append_cancel_left_eq, List.cons.injEq, StockRow.mk.injEq, and_true, true_and]
  omega

lemma filter_append_none {rows : List StockRow} {pid bidq : ℕ}
    (h : ∀ r ∈ rows, r.product_id ≠ pid) (base : List StockRow) :
    (base ++ rows).filter (fun r => r.bill_id = bidq ∧ r.product_id = pid)
      = base.filter (fun r => r.bill_id = bidq ∧ r.product_id = pid) := by
  have hnil : rows.filter (fun r => r.bill_id = bidq ∧ r.product_id = pid) = [] := by
    rw [List.filter_eq_nil_iff]
    intro r hr
    simp only [decide_eq_true_eq, not_and]
    exact fun _ => h r hr
  rw [List.filter_append, hnil, List.append_nil]

lemma applyItem_hist_ne (bid cb : ℕ) (db : DB) (it : CartItem) (pid : ℕ)
    (hne : pid ≠ it.product_id) (bidq : ℕ) :
    (applyItem bid cb db it).stock_history.filter
        (fun r => r.bill_id = bidq ∧ r.product_id = pid)
      = db.stock_history.filter (fun r => r.bill_id = bidq ∧ r.product_id = pid) := by
  apply filter_append_none
  intro r hr
  obtain ⟨x, hx, rfl⟩ := List.mem_map.mp hr
  exact fun hc => hne hc.symm

lemma foldl_applyItem_bills (bid cb : ℕ) :
    ∀ (items : List CartItem) (db : DB),
      (items.foldl (applyItem bid cb) db).bills = db.bills := by
  intro items
  induction items with
  | nil => intro db; rfl
  | cons j rest ih =>
    intro db
    simp only [List.foldl_cons]
    rw [ih, applyItem_bills]

lemma foldl_applyItem_frame (bid cb : ℕ) :
    ∀ (items : List CartItem) (db : DB) (pid : ℕ),
      pid ∉ items.map CartItem.product_id →
      stockOf (items.foldl (applyItem bid cb) db) pid = stockOf db pid
      ∧ ∀ bidq : ℕ,
          (items.foldl (applyItem bid cb) db).stock_history.filter
              (fun r => r.bill_id = bidq ∧ r.product_id = pid)
            = db.stock_history.filter (fun r => r.bill_id = bidq ∧ r.product_id = pid) := by
  intro items
  induction items with
  | nil => intro db pid _; exact ⟨rfl, fun _ => rfl⟩
  | cons j rest ih =>
    intro db pid h
    simp only [List.map_cons, List.mem_cons, not_or] at h
    simp only [List.foldl_cons]
    have hih := ih (applyItem bid cb db j) pid h.2
    refine ⟨?_, fun bidq => ?_⟩
    · rw [hih.1, applyItem_stock_ne bid cb db j pid h.1]
    · rw [hih.2 bidq, applyItem_hist_ne bid cb db j pid h.1 bidq]

lemma foldl_applyItem_spec (bid cb : ℕ) :
    ∀ (items : List CartItem) (db : DB),
      (db.products.map Product.id).Nodup →
      (items.map CartItem.product_id).Nodup →
      (∀ it ∈ items, it.product_id ∈ db.products.map Product.id) →
      ∀ it ∈ items,
        stockOf (items.foldl (applyItem bid cb) db) it.product_id
          = stockOf db it.product_id - it.quantity
        ∧ (items.foldl (applyItem bid cb) db).stock_history.filter
            (fun r => r.bill_id = bid ∧ r.product_id = it.product_id)
          = db.stock_history.filter (fun r => r.bill_id = bid ∧ r.product_id = it.product_id)
            ++ [{ product_id := it.product_id, change_type := "SALE",
                  quantity_before := stockOf db it.product_id,
                  quantity_after := stockOf db it.product_id - it.quantity,
                  quantity_changed := -it.quantity, bill_id := bid,
                  notes := "Stock reduced due to sale", created_by := cb }] := by
  intro items
  induction items with
  | nil => intro db _ _ _ it hit; simp at hit
  | cons j rest ih =>
    intro db hpnd hind hex it hit
    have hjmem : j.product_id ∈ db.products.map Product.id :=
      hex j (List.mem_cons_self _ _)
    have hnd2 : j.product_id ∉ rest.map CartItem.product_id
        ∧ (rest.map CartItem.product_id).Nodup := by
      rw [List.map_cons, List.nodup_cons] at hind
      exact hind
    simp only [List.foldl_cons]
    rcases List.mem_cons.mp hit with rfl | hrest
    · have hframe := foldl_applyItem_frame bid cb rest (applyItem bid cb db it)
        it.product_id hnd2.1
      refine ⟨?_, ?_⟩
      · rw [hframe.1, applyItem_stock_eq bid cb db it hjmem]
      · rw [hframe.2 bid, applyItem_hist bid cb db it hpnd hjmem, List.filter_append]
        congr 1
        simp
    · have hne : it.product_id ≠ j.product_id := by
        intro he
        exact hnd2.1 (he ▸ List.mem_map_of_mem CartItem.product_id hrest)
      have hih := ih (applyItem bid cb db j) (by rw [applyItem_ids]; exact hpnd) hnd2.2
        (fun x hx => by rw [applyItem_ids]; exact hex x (List.mem_cons_of_mem _ hx)) it hrest
      refine ⟨?_, ?_⟩
      · rw [hih.1, applyItem_stock_ne bid cb db j it.product_id hne]
      · rw [hih.2, applyItem_hist_ne bid cb db j it.product_id hne bid,
          applyItem_stock_ne bid cb db j it.product_id hne]

lemma db_create_bill_ok (failAt : Option ℕ) (bd : BillData) (items : List CartItem)
    (db : DB) (hok : (db_create_bill failAt bd items db).1 = true) :
    (db_create_bill failAt bd items db).2.2
      = items.foldl (applyItem (nextBillId db) bd.created_by)
          (insertBill bd (nextBillId db) db) := by
  unfold db_create_bill at hok ⊢
  by_cases hdup : db.bills.any (fun b => b.invoice_number = bd.invoice_number)
  · rw [if_pos hdup] at hok
    simp at hok
  rw [if_neg hdup] at hok ⊢
  by_cases h0 : failAt = some 0
  · rw [if_pos h0] at hok
    simp at hok
  rw [if_neg h0] at hok ⊢
  cases hrun : runItems failAt (nextBillId db) bd.created_by items 1
      (insertBill bd (nextBillId db) db) with
  | none =>
    rw [hrun] at hok
    simp at hok
  | some pr =>
    obtain ⟨db2, k2⟩ := pr
    rw [hrun] at hok
    have hsome := runItems_some failAt (nextBillId db) bd.created_by items 1 _ db2 k2 hrun
    by_cases hc : failAt = some k2
    · have hok2 : (if failAt = some k2
          then ((false, "Storage failure", db) : Bool × String × DB)
          else (true, "Bill created successfully", db2)).1 = true := hok
      rw [if_pos hc] at hok2
      simp at hok2
    · show (if failAt = some k2 then (false, "Storage failure", db)
        else (true, "Bill created successfully", db2)).2.2 = _
      rw [if_neg hc]
      exact hsome.2

/-- C3: on every successful commit the bill row is appended with the fresh
id, and for every line of the committed cart (product ids distinct, all
products present, the fresh id unused in the ledger) the product's stock
has decreased by exactly the line quantity and the ledger rows carrying
that invoice id and product id are exactly one row whose
`quantity_before - quantity_after` is the line quantity. -/
theorem db_create_bill_ledger (failAt : Option ℕ) (bd : BillData) (items : List CartItem)
    (db : DB)
    (hnd : (items.map CartItem.product_id).Nodup)
    (hpnd : (db.products.map Product.id).Nodup)
    (hex : ∀ it ∈ items, it.product_id ∈ db.products.map Product.id)
    (hfresh : ∀ r ∈ db.stock_history, r.bill_id ≠ nextBillId db)
    (hok : (db_create_bill failAt bd items db).1 = true) :
    (db_create_bill failAt bd items db).2.2.bills = db.bills ++ [⟨bd, nextBillId db⟩]
  ∧ ∀ it ∈ items,
      stockOf (db_create_bill failAt bd items db).2.2 it.product_id
        = stockOf db it.product_id - it.quantity
      ∧ (db_create_bill failAt bd items db).2.2.stock_history.filter
          (fun r => r.bill_id = nextBillId db ∧ r.product_id = it.product_id)
        = [{ product_id := it.product_id, change_type := "SALE",
             quantity_before := stockOf db it.product_id,
             quantity_after := stockOf db it.product_id - it.quantity,
             quantity_changed := -it.quantity, bill_id := nextBillId db,
             notes := "Stock reduced due to sale", created_by := bd.created_by }] := by
  rw [db_create_bill_ok failAt bd items db hok]
  constructor
  · rw [foldl_applyItem_bills]
    rfl
  · intro it hit
    have hspec := foldl_applyItem_spec (nextBillId db) bd.created_by items
      (insertBill bd (nextBillId db) db) hpnd hnd hex it hit
    have hold : (insertBill bd (nextBillId db) db).stock_history.filter
        (fun r => r.bill_id = nextBillId db ∧ r.product_id = it.product_id) = [] := by
      rw [List.filter_eq_nil_iff]
      intro r hr
      simp only [decide_eq_true_eq, not_and]
      exact fun hb => absurd hb (hfresh r hr)
    have hsame : stockOf (insertBill bd (nextBillId db) db) it.product_id
        = stockOf db it.product_id := rfl
    refine ⟨hspec.1, ?_⟩
    rw [hspec.2, hold, List.nil_append, hsame]

/-- C3, witness: committing one line of 2 units against a store holding one
product with stock 10 leaves stock 8 and exactly one ledger row with
`before = 10`, `after = 8` for the fresh bill id. -/
theorem db_create_bill_ledger_witness :
    stockOf (db_create_bill none
      ⟨"NH/1/25-26", some 1, "Asha", "", "", "", "", "", 1, false,
        270, 330, 270, 0, 0, 0, 0, 0, 270, 7⟩
      [⟨1, "Tonic", "30049012", "", "", 2, "Nos", 300, 55, 135, 270⟩]
      ⟨[⟨1, "Tonic", "30049012", "Nos", 300, 55, 135, 10⟩], [], [], [], []⟩).2.2 1
      = stockOf ⟨[⟨1, "Tonic", "30049012", "Nos", 300, 55, 135, 10⟩], [], [], [], []⟩ 1 - 2
  ∧ (db_create_bill none
      ⟨"NH/1/25-26", some 1, "Asha", "", "", "", "", "", 1, false,
        270, 330, 270, 0, 0, 0, 0, 0, 270, 7⟩
      [⟨1, "Tonic", "30049012", "", "", 2, "Nos", 300, 55, 135, 270⟩]
      ⟨[⟨1, "Tonic", "30049012", "Nos", 300, 55, 135, 10⟩], [], [], [], []⟩).2.2.stock_history.filter
        (fun r => r.bill_id = nextBillId
            ⟨[⟨1, "Tonic", "30049012", "Nos", 300, 55, 135, 10⟩], [], [], [], []⟩
          ∧ r.product_id = 1)
      = [{ product_id := 1, change_type := "SALE",
           quantity_before := stockOf
             ⟨[⟨1, "Tonic", "30049012", "Nos", 300, 55, 135, 10⟩], [], [], [], []⟩ 1,
           quantity_after := stockOf
             ⟨[⟨1, "Tonic", "30049012", "Nos", 300, 55, 135, 10⟩], [], [], [], []⟩ 1 - 2,
           quantity_changed := -2,
           bill_id := nextBillId
             ⟨[⟨1, "Tonic", "30049012", "Nos", 300, 55, 135, 10⟩], [], [], [], []⟩,
           notes := "Stock reduced due to sale", created_by := 7 }] := by
  have h := (db_create_bill_ledger none
    ⟨"NH/1/25-26", some 1, "Asha", "", "", "", "", "", 1, false,
      270, 330, 270, 0, 0, 0, 0, 0, 270, 7⟩
    [⟨1, "Tonic", "30049012", "", "", 2, "Nos", 300, 55, 135, 270⟩]
    ⟨[⟨1, "Tonic", "30049012", "Nos", 300, 55, 135, 10⟩], [], [], [], []⟩
    (by decide) (by decide) (by decide) (by decide) (by decide)).2
    ⟨1, "Tonic", "30049012", "", "", 2, "Nos", 300, 55, 135, 270⟩
    (List.mem_singleton.mpr rfl)
  exact h

lemma db_create_bill_fail_eq (failAt : Option ℕ) (bd : BillData) (items : List CartItem)
    (db : DB) (hfalse : (db_create_bill failAt bd items db).1 = false) :
    (db_create_bill failAt bd items db).2.2 = db := by
  unfold db_create_bill at hfalse ⊢
  by_cases hdup : db.bills.any (fun b => b.invoice_number = bd.invoice_number)
  · rw [if_pos hdup]
  · rw [if_neg hdup] at hfalse ⊢
    by_cases h0 : failAt = some 0
    · rw [if_pos h0]
    · rw [if_neg h0] at hfalse ⊢
      cases hrun : runItems failAt (nextBillId db) bd.created_by items 1
          (insertBill bd (nextBillId db) db) with
      | none => rfl
      | some pr =>
        obtain ⟨db2, k2⟩ := pr
        rw [hrun] at hfalse
        by_cases hc : failAt = some k2
        · show (if failAt = some k2 then (false, "Storage failure", db)
            else (true, "Bill created successfully", db2)).2.2 = db
          rw [if_pos hc]
        · have hfalse2 : (if failAt = some k2
              then ((false, "Storage failure", db) : Bool × String × DB)
              else (true, "Bill created successfully", db2)).1 = false := hfalse
          rw [if_neg hc] at hfalse2
          simp at hfalse2

/-! ## The billing manager's commit (`BillingManager.create_bill`)

The manager state bundles the company settings (the invoice-number counter
persisted through `CompanySettings.set_next_invoice_number`), the durable
store, and the in-memory cart.  The fiscal-year label (from the clock) and
the authenticated creator id are parameters. -/

/-- The slice of the company settings the billing flow reads and writes. -/
structure SettingsState where
  invoice_pfx : String
  state_code : String
  next_invoice_number : ℕ
deriving DecidableEq, Repr

/-- The whole mutable state the commit touches. -/
structure AppState where
  settings : SettingsState
  db : DB
  cart : List CartItem
deriving DecidableEq, Repr

/-- The customer form data handed to `create_bill`. -/
structure CustomerData where
  customer_name : String
  customer_phone : String
  customer_address : String
  customer_city : String
  customer_pin_code : String
  customer_gstin : String
deriving DecidableEq, Repr

/-- `previewTotals` as exposed to the UI: `calculate_totals` only reads the
cart, so the state passes through unchanged. -/
def previewTotals (is_gst_bill : Bool) (st : AppState) : Totals × AppState :=
  (calculate_totals st.cart is_gst_bill, st)

/-- `DatabaseManager.get_customer_by_phone`. -/
def get_customer_by_phone (db : DB) (phone : String) : Option Customer :=
  db.customers.find? (fun c => c.phone == phone)

/-- `sqlite` row-id assignment for a fresh `customers` insert. -/
def nextCustomerId (db : DB) : ℕ := (db.customers.map Customer.id).foldr max 0 + 1

/-- `DatabaseManager.add_or_update_customer` for the fields the billing flow
sends (email, state and pin code are absent from `customer_save_data` and
default to the empty string): match by stripped phone when non-empty and
update, else insert.  Returns the customer id and the store. -/
def add_or_update_customer (cd : CustomerData) (db : DB) : Option ℕ × DB :=
  match if pyStrip cd.customer_phone ≠ ""
      then get_customer_by_phone db (pyStrip cd.customer_phone) else none with
  | some c =>
    (some c.id,
      { db with customers := db.customers.map (fun x =>
          if x.id = c.id then
            { x with
              name := cd.customer_name
              email := ""
              address := cd.customer_address
              city := cd.customer_city
              state := ""
              pin_code := ""
              gstin := cd.customer_gstin }
          else x) })
  | none =>
    (some (nextCustomerId db),
      { db with customers := db.customers ++
          [{ id := nextCustomerId db, name := cd.customer_name,
             phone := cd.customer_phone, email := "",
             address := cd.customer_address, city := cd.customer_city,
             state := "", pin_code := "", gstin := cd.customer_gstin }] })

/-- The invoice number generated inside `create_bill`: the duplicate oracle
queries the store as left by the customer upsert. -/
def bm_gen (cd : CustomerData) (fy : String) (st : AppState) : String × ℕ :=
  generate_invoice_number
    (fun s => (add_or_update_customer cd st.db).2.bills.any (fun b => b.invoice_number = s))
    st.settings.invoice_pfx fy st.settings.next_invoice_number

/-- The totals as refined for the bill: split by state for a GST bill, the
three components zeroed otherwise. -/
def bm_totals (cd : CustomerData) (g : Bool) (st : AppState) : Totals :=
  if g then
    split_tax_by_state st.settings.state_code (calculate_totals st.cart g)
      (pyStrip cd.customer_gstin)
  else
    { calculate_totals st.cart g with cgst_amount := 0, sgst_amount := 0, igst_amount := 0 }

/-- The `bill_data` dictionary `create_bill` hands to the store. -/
def bm_bd (cd : CustomerData) (spid : ℕ) (g : Bool) (fy : String) (cb : ℕ)
    (st : AppState) : BillData :=
  { invoice_number := (bm_gen cd fy st).1
    customer_id := (add_or_update_customer cd st.db).1
    customer_name := cd.customer_name
    customer_phone := cd.customer_phone
    customer_address := cd.customer_address
    customer_city := cd.customer_city
    customer_pin_code := cd.customer_pin_code
    customer_gstin := pyStrip cd.customer_gstin
    sales_person_id := spid
    is_gst_bill := g
    subtotal := (bm_totals cd g st).subtotal
    discount_amount := (bm_totals cd g st).discount_amount
    taxable_amount := (bm_totals cd g st).taxable_amount
    cgst_amount := (bm_totals cd g st).cgst_amount
    sgst_amount := (bm_totals cd g st).sgst_amount
    igst_amount := (bm_totals cd g st).igst_amount
    total_tax := (bm_totals cd g st).total_tax
    round_off := (bm_totals cd g st).round_off
    grand_total := (bm_totals cd g st).grand_total
    created_by := cb }

/-- The body of `BillingManager.create_bill` past the validations: customer
upsert, invoice-number generation (persisting the advanced counter before
any bill write), totals, and the transactional store write.  The cart is not
cleared here (the caller does that on success). -/
def bm_create_bill_go (failAt : Option ℕ) (cd : CustomerData) (spid : ℕ) (g : Bool)
    (fy : String) (cb : ℕ) (st : AppState) : (Bool × String) × AppState :=
  let r := db_create_bill failAt (bm_bd cd spid g fy cb st) st.cart
    (add_or_update_customer cd st.db).2
  ((r.1, if r.1 = true then "Bill created successfully" else r.2.1),
    ⟨{ st.settings with next_invoice_number := (bm_gen cd fy st).2 }, r.2.2, st.cart⟩)

/-- `BillingManager.create_bill`: the four validations, then the commit
body.  Returns `((success, message), state)`. -/
def bm_create_bill (failAt : Option ℕ) (cd : CustomerData) (spid : ℕ) (g : Bool)
    (fy : String) (cb : ℕ) (st : AppState) : (Bool × String) × AppState :=
  if st.cart.isEmpty then ((false, "Cart is empty"), st)
  else if cd.customer_name = "" then ((false, "Customer name is required"), st)
  else if spid = 0 then ((false, "Sales person is required"), st)
  else if g = true ∧ cd.customer_gstin = "" then
    ((false, "Customer GSTIN is required for GST bills"), st)
  else bm_create_bill_go failAt cd spid g fy cb st

lemma add_or_update_customer_products (cd : CustomerData) (db : DB) :
    (add_or_update_customer cd db).2.products = db.products := by
  unfold add_or_update_customer
  cases hm : (if pyStrip cd.customer_phone ≠ ""
      then get_customer_by_phone db (pyStrip cd.customer_phone) else none) with
  | none => rfl
  | some c => rfl

lemma bm_validation (failAt : Option ℕ) (cd : CustomerData) (spid : ℕ) (g : Bool)
    (fy : String) (cb : ℕ) (st : AppState)
    (h : st.cart = [] ∨ cd.customer_name = "" ∨ spid = 0
      ∨ (g = true ∧ cd.customer_gstin = "")) :
    bm_create_bill failAt cd spid g fy cb st =
      ((false,
        if st.cart.isEmpty then "Cart is empty"
        else if cd.customer_name = "" then "Customer name is required"
        else if spid = 0 then "Sales person is required"
        else "Customer GSTIN is required for GST bills"), st) := by
  unfold bm_create_bill
  by_cases hE : st.cart.isEmpty
  · rw [if_pos hE, if_pos hE]
  · rw [if_neg hE, if_neg hE]
    have hE' : ¬ st.cart = [] := by simpa [List.isEmpty_iff] using hE
    by_cases hN : cd.customer_name = ""
    · rw [if_pos hN, if_pos hN]
    · rw [if_neg hN, if_neg hN]
      by_cases hS : spid = 0
      · rw [if_pos hS, if_pos hS]
      · rw [if_neg hS, if_neg hS]
        have hG : g = true ∧ cd.customer_gstin = "" := by
          rcases h with h | h | h | h
          · exact absurd h hE'
          · exact absurd h hN
          · exact absurd h hS
          · exact h
        rw [if_pos hG]

/-- C9: `previewTotals` is idempotent and side-effect free — two consecutive
calls with the same cart and flag return the same totals, and neither call
changes any state. -/
theorem previewTotals_idempotent (g : Bool) (st : AppState) :
    (previewTotals g ((previewTotals g st).2)).1 = (previewTotals g st).1
  ∧ (previewTotals g st).2 = st
  ∧ (previewTotals g ((previewTotals g st).2)).2 = st :=
  ⟨rfl, rfl, rfl⟩

/-- C7: a commit with an empty cart, a blank buyer name, a missing
salesperson, or a taxed bill without a buyer GSTIN is rejected with the
message naming the missing field, and the whole state — cart, settings and
store — is returned untouched. -/
theorem create_bill_validates (failAt : Option ℕ) (cd : CustomerData) (spid : ℕ)
    (g : Bool) (fy : String) (cb : ℕ) (st : AppState)
    (h : st.cart = [] ∨ cd.customer_name = "" ∨ spid = 0
      ∨ (g = true ∧ cd.customer_gstin = "")) :
    (bm_create_bill failAt cd spid g fy cb st).1.1 = false
  ∧ (bm_create_bill failAt cd spid g fy cb st).2 = st
  ∧ (bm_create_bill failAt cd spid g fy cb st).1.2 =
      (if st.cart.isEmpty then "Cart is empty"
       else if cd.customer_name = "" then "Customer name is required"
       else if spid = 0 then "Sales person is required"
       else "Customer GSTIN is required for GST bills") := by
  rw [bm_validation failAt cd spid g fy cb st h]
  exact ⟨rfl, rfl, rfl⟩

/-- C7, witness: an empty-cart commit is rejected with "Cart is empty" and
the state is unchanged. -/
theorem create_bill_validates_witness :
    (bm_create_bill none ⟨"Asha", "", "", "", "", ""⟩ 1 false "25-26" 7
      ⟨⟨"NH", "19", 5⟩, ⟨[], [], [], [], []⟩, []⟩).1.1 = false
  ∧ (bm_create_bill none ⟨"Asha", "", "", "", "", ""⟩ 1 false "25-26" 7
      ⟨⟨"NH", "19", 5⟩, ⟨[], [], [], [], []⟩, []⟩).2
      = ⟨⟨"NH", "19", 5⟩, ⟨[], [], [], [], []⟩, []⟩ :=
  ⟨(create_bill_validates none ⟨"Asha", "", "", "", "", ""⟩ 1 false "25-26" 7
      ⟨⟨"NH", "19", 5⟩, ⟨[], [], [], [], []⟩, []⟩ (Or.inl rfl)).1,
   (create_bill_validates none ⟨"Asha", "", "", "", "", ""⟩ 1 false "25-26" 7
      ⟨⟨"NH", "19", 5⟩, ⟨[], [], [], [], []⟩, []⟩ (Or.inl rfl)).2.1⟩

/-- C1, counterexample: a commit attempt rejected by a storage failure at
the bill-insert write (cart one line, counter 5) reports failure, yet the
persisted sequence counter has advanced from 5 to 6, because the sequencer
stores the incremented counter before the transactional unit runs. -/
theorem create_bill_counter_advanced_cex :
    (bm_create_bill (some 0) ⟨"Asha", "", "", "", "", ""⟩ 1 false "25-26" 7
      ⟨⟨"NH", "19", 5⟩,
        ⟨[⟨1, "Tonic", "30049012", "Nos", 300, 55, 135, 10⟩], [], [], [], []⟩,
        [⟨1, "Tonic", "30049012", "", "", 2, "Nos", 300, 55, 135, 270⟩]⟩).1.1 = false
  ∧ (bm_create_bill (some 0) ⟨"Asha", "", "", "", "", ""⟩ 1 false "25-26" 7
      ⟨⟨"NH", "19", 5⟩,
        ⟨[⟨1, "Tonic", "30049012", "Nos", 300, 55, 135, 10⟩], [], [], [], []⟩,
        [⟨1, "Tonic", "30049012", "", "", 2, "Nos", 300, 55, 135, 270⟩]⟩).2.settings.next_invoice_number = 6
  ∧ (⟨⟨"NH", "19", 5⟩,
        ⟨[⟨1, "Tonic", "30049012", "Nos", 300, 55, 135, 10⟩], [], [], [], []⟩,
        [⟨1, "Tonic", "30049012", "", "", 2, "Nos", 300, 55, 135, 270⟩]⟩ :
          AppState).settings.next_invoice_number = 5 := by
  refine ⟨?_, ?_, rfl⟩ <;> decide

/-- C1 (amended): every rejected commit leaves all product stocks exactly as
they were; a commit rejected by one of the four validations additionally
leaves the whole state (sequence counter included) unchanged — but a commit
rejected by a storage failure may already have persisted the advanced
counter. -/
theorem create_bill_rejected_state (failAt : Option ℕ) (cd : CustomerData) (spid : ℕ)
    (g : Bool) (fy : String) (cb : ℕ) (st : AppState)
    (hrej : (bm_create_bill failAt cd spid g fy cb st).1.1 = false) :
    (bm_create_bill failAt cd spid g fy cb st).2.db.products = st.db.products
  ∧ ((st.cart = [] ∨ cd.customer_name = "" ∨ spid = 0
        ∨ (g = true ∧ cd.customer_gstin = "")) →
      (bm_create_bill failAt cd spid g fy cb st).2 = st) := by
  constructor
  · by_cases hval : st.cart = [] ∨ cd.customer_name = "" ∨ spid = 0
        ∨ (g = true ∧ cd.customer_gstin = "")
    · rw [bm_validation failAt cd spid g fy cb st hval]
    · push_neg at hval
      obtain ⟨h1, h2, h3, h4⟩ := hval
      have hE : ¬ st.cart.isEmpty := by simpa [List.isEmpty_iff] using h1
      have h4' : ¬ (g = true ∧ cd.customer_gstin = "") := by
        rintro ⟨hg, hgs⟩
        exact h4 hg hgs
      unfold bm_create_bill at hrej ⊢
      rw [if_neg hE, if_neg h2, if_neg h3, if_neg h4'] at hrej ⊢
      have hflag : (db_create_bill failAt (bm_bd cd spid g fy cb st) st.cart
          (add_or_update_customer cd st.db).2).1 = false := hrej
      have hdb := db_create_bill_fail_eq failAt (bm_bd cd spid g fy cb st) st.cart
        (add_or_update_customer cd st.db).2 hflag
      show (db_create_bill failAt (bm_bd cd spid g fy cb st) st.cart
          (add_or_update_customer cd st.db).2).2.2.products = st.db.products
      rw [hdb]
      exact add_or_update_customer_products cd st.db
  · intro hval
    rw [bm_validation failAt cd spid g fy cb st hval]

/-- C1, witness: the storage-failure rejection of the counterexample input
indeed leaves the product stocks unchanged. -/
theorem create_bill_rejected_state_witness :
    (bm_create_bill (some 0) ⟨"Asha", "", "", "", "", ""⟩ 1 false "25-26" 7
      ⟨⟨"NH", "19", 5⟩,
        ⟨[⟨1, "Tonic", "30049012", "Nos", 300, 55, 135, 10⟩], [], [], [], []⟩,
        [⟨1, "Tonic", "30049012", "", "", 2, "Nos", 300, 55, 135, 270⟩]⟩).2.db.products
      = [⟨1, "Tonic", "30049012", "Nos", 300, 55, 135, 10⟩] :=
  (create_bill_rejected_state (some 0) ⟨"Asha", "", "", "", "", ""⟩ 1 false "25-26" 7
      ⟨⟨"NH", "19", 5⟩,
        ⟨[⟨1, "Tonic", "30049012", "Nos", 300, 55, 135, 10⟩], [], [], [], []⟩,
        [⟨1, "Tonic", "30049012", "", "", 2, "Nos", 300, 55, 135, 270⟩]⟩
      (by decide)).1

end BillingApp
